import Mathlib

/-!
Verification of the resume-analysis pipeline in `analyzer/text_classification.py`.

Text is modelled as `List Char`.  Python's `re` whitespace class `\s` (which on
`str` inputs matches the Unicode whitespace set, the same set used by
`str.split()`, `str.strip()` and `str.isspace()`) is modelled by `isPySpace`.
Machine floats of the source are modelled by exact rationals `ℚ`; network and
library calls (LanguageTool, the sentence-embedding model, the Gemini client)
are modelled as oracle parameters recording the outcome of the one call the
code makes, since their behaviour is external to the repository.
-/

namespace ResumeAnalyzer

/-- The Unicode whitespace set recognised by Python's `str` methods and by
`\s` in a unicode-mode regular expression. -/
def isPySpace (c : Char) : Bool :=
  let n := c.toNat
  n = 9 || n = 10 || n = 11 || n = 12 || n = 13 || (28 ≤ n && n ≤ 31) || n = 32 ||
  n = 0x85 || n = 0xA0 || n = 0x1680 || (0x2000 ≤ n && n ≤ 0x200A) ||
  n = 0x2028 || n = 0x2029 || n = 0x202F || n = 0x205F || n = 0x3000

/-- `text.replace("\x00", " ")` of `clean_text`. -/
def pyMapNul (t : List Char) : List Char :=
  t.map (fun c => if c = '\x00' then ' ' else c)

/-- `re.sub(r'\s+', ' ', text)`: every maximal run of whitespace becomes one
space.  The flag records whether the previous character was whitespace. -/
def collapseAux : Bool → List Char → List Char
  | _, [] => []
  | b, c :: rest =>
    if isPySpace c then
      if b then collapseAux true rest else ' ' :: collapseAux true rest
    else c :: collapseAux false rest

/-- Leading-whitespace removal, as in Python `str.strip()`. -/
def lstrip (t : List Char) : List Char := t.dropWhile isPySpace

/-- Trailing-whitespace removal, as in Python `str.strip()`. -/
def rstrip : List Char → List Char
  | [] => []
  | c :: rest =>
    let r := rstrip rest
    if r.isEmpty && isPySpace c then [] else c :: r

/-- Python `str.strip()`: whitespace removed from both ends. -/
def pyStrip (t : List Char) : List Char := rstrip (lstrip t)

/-- `clean_text` from `text_classification.py`:
`text.replace("\x00", " ")`, then `re.sub(r'\s+', ' ', text)`, then
`text.strip()`. -/
def clean_text (t : List Char) : List Char :=
  pyStrip (collapseAux false (pyMapNul t))

/-- `leadsWith needle hay`: `hay` starts with `needle`. -/
def leadsWith : List Char → List Char → Bool
  | [], _ => true
  | _ :: _, [] => false
  | p :: ps, c :: cs => p == c && leadsWith ps cs

/-- Python's substring test `needle in hay`. -/
def strContains (hay needle : List Char) : Bool :=
  match hay with
  | [] => needle.isEmpty
  | _ :: t => leadsWith needle hay || strContains t needle

/-- Python `str.lower()` (ASCII range, as used by the analyzed texts). -/
def lowerStr (t : List Char) : List Char := t.map Char.toLower

/-- A regex word character `\w`: alphanumeric or underscore. -/
def isPyWord (c : Char) : Bool := c.isAlphanum || c = '_'

/-- Python `str.split()` with no argument: maximal non-whitespace runs. -/
def splitWsAux : List Char → List Char → List (List Char)
  | acc, [] => if acc.isEmpty then [] else [acc.reverse]
  | acc, c :: rest =>
    if isPySpace c then
      if acc.isEmpty then splitWsAux [] rest else acc.reverse :: splitWsAux [] rest
    else splitWsAux (c :: acc) rest

def pySplitWs (t : List Char) : List (List Char) := splitWsAux [] t

/-- Maximal runs of word characters (`\w`) in a text; the matches of
`\b[a-zA-Z]+\b` are exactly those runs that consist solely of letters. -/
def wordRunsAux : List Char → List Char → List (List Char)
  | acc, [] => if acc.isEmpty then [] else [acc.reverse]
  | acc, c :: rest =>
    if isPyWord c then wordRunsAux (c :: acc) rest
    else if acc.isEmpty then wordRunsAux [] rest else acc.reverse :: wordRunsAux [] rest

def wordRuns (t : List Char) : List (List Char) := wordRunsAux [] t

/-- The `ACTION_VERBS` constant of `text_classification.py`. -/
def ACTION_VERBS : List (List Char) :=
  ["achieved", "improved", "managed", "led", "created", "designed", "implemented",
   "reduced", "increased", "developed", "engineered", "launched", "optimized",
   "automated", "orchestrated", "resolved", "boosted", "coordinated", "spearheaded",
   "delivered", "built", "founded", "mentored", "trained", "negotiated"].map String.data

/-- `count_action_verbs`: `re.findall(r'\b[a-zA-Z]+\b', text.lower())`, then count
the tokens that belong to `ACTION_VERBS`.  A match of `\b[a-zA-Z]+\b` is a
maximal `\w`-run made only of letters (a run touching a digit or `_` has no
word boundary inside it). -/
def count_action_verbs (text : List Char) : ℕ :=
  (((wordRuns (lowerStr text)).filter (fun r => r.all Char.isAlpha)).filter
    (fun w => ACTION_VERBS.contains w)).length

/-- The `REQUIRED_SECTIONS` constant of `text_classification.py`. -/
def REQUIRED_SECTIONS : List (List Char) :=
  ["+91", "summary", "skills", "experience", "Projects", "education", "LinkedIn"].map
    String.data

/-- `detect_missing_sections`: collect the sections whose lower-cased label is a
substring of the lower-cased text, then return the sections not collected,
in declaration order. -/
def detect_missing_sections (text : List Char) : List (List Char) :=
  let found := REQUIRED_SECTIONS.filter
    (fun sec => strContains (lowerStr text) (lowerStr sec))
  REQUIRED_SECTIONS.filter (fun s => !(found.contains s))

/-- One LanguageTool match: the fields the code reads (`ruleId`, `message`). -/
structure GrammarMatch where
  ruleId : List Char
  message : List Char

/-- The dictionary returned by `grammar_check`.  A Python key that is absent on
some code path is modelled as an `Option` field. -/
structure GrammarResult where
  errors_count : Int
  error : Option (List Char)
  sample_errors : List (List Char)
deriving DecidableEq

/-- `grammar_check`.  The LanguageTool client call (a network round-trip to a
local server) is modelled by the oracle `service`: `.ok` is the match list
`tool.check(text)` returns, `.error` is the message of the exception the
`try` block caught.  `avail` is the module flag `LANG_TOOL_AVAILABLE`. -/
def grammar_check (avail : Bool)
    (service : List Char → Except (List Char) (List GrammarMatch))
    (text : List Char) : GrammarResult :=
  if !avail then
    { errors_count := -1, error := some "language_tool_python not installed".data,
      sample_errors := [] }
  else
    match service text with
    | .error e => { errors_count := -1, error := some e, sample_errors := [] }
    | .ok ms =>
      { errors_count := ms.length, error := none,
        sample_errors :=
          (ms.take 10).map (fun m => m.ruleId ++ " | ".data ++ m.message.take 200) }

/-- The character class of the keyword regex `[A-Za-z0-9\+\#\-\_]`. -/
def isClassKw (c : Char) : Bool :=
  c.isAlphanum || c = '+' || c = '#' || c = '-' || c = '_'

/-- End of a match of `\b[A-Za-z0-9\+\#\-\_]+\b` starting a greedy run `run`:
the largest length `j ≥ 1` whose final position is a word boundary.  `nextW`
is the word-character status of the character just after the first `j + 1`
candidate characters (`false` past the end of the text). -/
def findEndAux (run : List Char) : ℕ → Bool → Option ℕ
  | 0, _ => none
  | j + 1, nextW =>
    let cw := isPyWord (run.getD j ' ')
    if cw != nextW then some (j + 1) else findEndAux run j cw

/-- Left-to-right scan of `re.findall(r'\b[A-Za-z0-9\+\#\-\_]+\b', text)`.
`prevW`: whether the character before the current position is a word
character (`false` at the start of the text).  A match needs a word boundary
before its first character, takes the greedy class run, and backtracks to the
longest prefix ending at a word boundary; scanning resumes after the match.
The fuel is at least `length + 1`, and at least one character is consumed per
step, so it never runs out. -/
def kwScan : ℕ → Bool → List Char → List (List Char)
  | 0, _, _ => []
  | _, _, [] => []
  | fuel + 1, prevW, c :: rest =>
    if isClassKw c && (prevW != isPyWord c) then
      let run := (c :: rest).takeWhile isClassKw
      let nextW := match (c :: rest).drop run.length with
        | [] => false
        | a :: _ => isPyWord a
      match findEndAux run run.length nextW with
      | some j =>
        run.take j :: kwScan fuel (isPyWord (run.getD (j - 1) ' ')) ((c :: rest).drop j)
      | none => kwScan fuel (isPyWord c) rest
    else kwScan fuel (isPyWord c) rest

def pyFindallKw (t : List Char) : List (List Char) := kwScan (t.length + 1) false t

/-- `{w.lower() for w in re.findall(...) if len(w) > 2}` of
`compute_keyword_match`: the set is modelled as a duplicate-free list; all
uses (size, membership count) are independent of element order. -/
def job_keywords (job_text : List Char) : List (List Char) :=
  (((pyFindallKw job_text).filter (fun w => 2 < w.length)).map lowerStr).dedup

/-- The dictionary returned by `compute_keyword_match`; the `job_keyword_count`
key, absent on the two failure paths, is an `Option` field. -/
structure KeywordMatchResult where
  semantic_similarity : ℚ
  keyword_coverage_percent : ℚ
  job_keyword_count : Option ℕ
  error : Option (List Char)
deriving DecidableEq

/-- `compute_keyword_match`.  `embed_model` is the global `EMBED_MODEL`
(`none` when loading failed); a loaded model is the oracle giving
`util.cos_sim(encode(resume), encode(job)).item()` or the exception message
the `try` block caught.  The keyword arithmetic after a successful encoding
is total, so the oracle is the only exception source of the `try` block. -/
def compute_keyword_match (resume_text job_text : List Char)
    (embed_model : Option (List Char → List Char → Except (List Char) ℚ)) :
    KeywordMatchResult :=
  match embed_model with
  | none =>
    { semantic_similarity := -1, keyword_coverage_percent := 0,
      job_keyword_count := none, error := some "Embedding model not loaded.".data }
  | some enc =>
    match enc resume_text job_text with
    | .error e =>
      { semantic_similarity := -1, keyword_coverage_percent := 0,
        job_keyword_count := none, error := some e }
    | .ok sim =>
      let kws := job_keywords job_text
      if 0 < kws.length then
        let present := (kws.filter (fun k => strContains (lowerStr resume_text) k)).length
        { semantic_similarity := sim,
          keyword_coverage_percent := (present : ℚ) / (kws.length : ℚ) * 100,
          job_keyword_count := some kws.length, error := none }
      else
        { semantic_similarity := sim, keyword_coverage_percent := 0,
          job_keyword_count := some 0, error := none }

/-- The bullet characters of the regex `[-•\*]`. -/
def isBulletChar (c : Char) : Bool := c = '-' || c = '•' || c = '*'

/-- One attempted match of `\s*[-•\*]\s+` at a line start.  The greedy `\s*`
is the maximal whitespace run (backtracking cannot help: a shorter run would
put a whitespace character where the bullet must be), then a bullet
character, then a non-empty greedy whitespace run.  Returns the text after
the match and whether the last consumed character was a newline. -/
def tryBullet (t : List Char) : Option (List Char × Bool) :=
  let ws1 := t.takeWhile isPySpace
  match t.drop ws1.length with
  | [] => none
  | c :: rest =>
    if isBulletChar c then
      let ws2 := rest.takeWhile isPySpace
      if ws2.isEmpty then none
      else some (rest.drop ws2.length, ws2.getLast? == some '\n')
    else none

/-- `len(re.findall(r'^\s*[-•\*]\s+', text, flags=re.MULTILINE))`: scan every
position; `^` succeeds only at the text start or just after a newline; after
a match the scan resumes at the match end.  Every step consumes at least one
character, so fuel `length + 1` never runs out. -/
def bulletsAux : ℕ → Bool → List Char → ℕ
  | 0, _, _ => 0
  | _, _, [] => 0
  | fuel + 1, atLineStart, c :: rest =>
    if atLineStart then
      match tryBullet (c :: rest) with
      | some (rem, nl) => 1 + bulletsAux fuel nl rem
      | none => bulletsAux fuel (c == '\n') rest
    else bulletsAux fuel (c == '\n') rest

def count_bullets (t : List Char) : ℕ := bulletsAux (t.length + 1) true t

/-- Python `", ".join(parts)` / `"\n\n".join(parts)`. -/
def joinSep (sep : List Char) : List (List Char) → List Char
  | [] => []
  | x :: xs =>
    match xs with
    | [] => x
    | _ :: _ => x ++ sep ++ joinSep sep xs

/-- `f"{i}. {s}"` numbering of the fallback suggestions, starting at `k`. -/
def numberFrom (k : ℕ) : List (List Char) → List (List Char)
  | [] => []
  | s :: rest => ((toString k).data ++ ". ".data ++ s) :: numberFrom (k + 1) rest

/-- The analysis dictionary built by `analyze_resume`.  All five keys are
assigned in one literal, so each is a plain field. -/
structure AnalysisRecord where
  word_count : ℕ
  action_verbs : ℕ
  missing_sections : List (List Char)
  grammar : GrammarResult
  keyword_match : KeywordMatchResult

/-- Suggestion 1 of `generate_feedback_fallback`. -/
def quantMsg : List Char :=
  "Add measurable achievements: for each role, include 1–2 quantifiable outcomes (e.g., \x27reduced cost by 20%\x27).".data

/-- Suggestion 2 of `generate_feedback_fallback` (missing sections, comma-joined). -/
def sectionsMsg (missing : List (List Char)) : List Char :=
  "Add or clearly label these sections: ".data ++ joinSep ", ".data missing ++
    ". Recruiters look for Skills and Experience upfront.".data

/-- Suggestion 3 of `generate_feedback_fallback` (grammar issue count). -/
def grammarMsg (n : Int) : List Char :=
  "Fix grammar & typos (".data ++ (toString n).data ++
    " issues found). Use consistent tense and bullet punctuation.".data

/-- Suggestion 4a of `generate_feedback_fallback` (coverage below 50). -/
def alignMsg : List Char :=
  "Improve keyword alignment with the job description: include important technologies and terms used in the JD.".data

/-- Suggestion 4b of `generate_feedback_fallback` (coverage at least 50). -/
def praiseMsg : List Char :=
  "Good job on keyword coverage vs the job description — ensure those keywords appear in context (achievements, not just skills list).".data

/-- Suggestion 5 of `generate_feedback_fallback` (few bullet lines). -/
def bulletMsg : List Char :=
  "Use concise bullet points for responsibilities and achievements (3–6 bullets per role).".data

/-- Suggestion 6 of `generate_feedback_fallback` (always appended). -/
def summaryMsg : List Char :=
  "Start with a short (2-3 sentences) professional summary that highlights your role, experience, and top skills.".data

/-- The suggestion list `generate_feedback_fallback` accumulates, in program
order.  `analysis["keyword_match"]` is a non-empty dictionary on every path
of `compute_keyword_match`, so the guard `job_text and analysis.get(
"keyword_match", {})` reduces to the truthiness of `job_text`
(`None` or `""` are falsy). -/
def fallbackSuggestions (resume_text : List Char) (analysis : AnalysisRecord)
    (job_text : Option (List Char)) : List (List Char) :=
  (if analysis.action_verbs < 5 || analysis.word_count < 250 then [quantMsg] else []) ++
  (if analysis.missing_sections.isEmpty then [] else
    [sectionsMsg analysis.missing_sections]) ++
  (if 0 < analysis.grammar.errors_count then [grammarMsg analysis.grammar.errors_count]
   else []) ++
  (match job_text with
   | none => []
   | some jt =>
     if jt.isEmpty then []
     else if analysis.keyword_match.keyword_coverage_percent < 50 then [alignMsg]
     else [praiseMsg]) ++
  (if count_bullets resume_text < 5 then [bulletMsg] else []) ++
  [summaryMsg]

/-- `generate_feedback_fallback`:
`"\n\n".join(f"{i+1}. {s}" for i, s in enumerate(suggestions))`. -/
def generate_feedback_fallback (resume_text : List Char) (analysis : AnalysisRecord)
    (job_text : Option (List Char)) : List Char :=
  joinSep "\n\n".data (numberFrom 1 (fallbackSuggestions resume_text analysis job_text))

/-- `generate_feedback_genai`.  `avail` is `GENAI_AVAILABLE`; the Gemini call
(`client.models.generate_content` followed by `resp.text.strip()`) is the
oracle `request`: `.ok` carries `resp.text`, `.error` the message of the
exception the `try` block caught.  The prompt built before the call only
feeds the request and cannot raise, so it does not influence these paths. -/
def generate_feedback_genai (avail : Bool) (request : Except (List Char) (List Char))
    (resume_text : List Char) (analysis : AnalysisRecord)
    (job_text : Option (List Char)) : List Char :=
  if !avail then
    "Gemini client library not installed; using fallback suggestions:\n\n".data ++
      generate_feedback_fallback resume_text analysis job_text
  else
    match request with
    | .ok out => pyStrip out
    | .error e =>
      "Gemini request failed: ".data ++ e ++ "\n\nFallback suggestions:\n".data ++
        generate_feedback_fallback resume_text analysis job_text

/-- The ambient state one call of `analyze_resume` reads: the configured
credential, the outcome of `extract_text(resume_file_path)` for the given
path, and the oracles/flags of the three external services. -/
structure Env where
  gemini_api_key : Option (List Char)
  extract_result : Except (List Char) (List Char)
  lang_tool_available : Bool
  grammar_service : List Char → Except (List Char) (List GrammarMatch)
  embed_model : Option (List Char → List Char → Except (List Char) ℚ)
  genai_available : Bool
  genai_request : Except (List Char) (List Char)

/-- Truthiness of `if not api_key:`: `None` or the empty string. -/
def pyFalsyKey : Option (List Char) → Bool
  | none => true
  | some k => k.isEmpty

/-- Step 3 of `analyze_resume`: the `analysis` dictionary literal. -/
def build_analysis (env : Env) (resume_text job_description : List Char) :
    AnalysisRecord :=
  { word_count := (pySplitWs resume_text).length
    action_verbs := count_action_verbs resume_text
    missing_sections := detect_missing_sections resume_text
    grammar := grammar_check env.lang_tool_available env.grammar_service resume_text
    keyword_match := compute_keyword_match resume_text job_description env.embed_model }

/-- `analyze_resume`: credential check, extraction (its `try` block's outcome is
`env.extract_result`), normalization, empty-text check, analysis, feedback. -/
def analyze_resume (env : Env) (job_description : List Char) : List Char :=
  if pyFalsyKey env.gemini_api_key then
    "Error: GEMINI_API_KEY not configured in Django settings.".data
  else
    match env.extract_result with
    | .error e => "Error during text extraction: ".data ++ e
    | .ok raw =>
      let resume_text := clean_text raw
      if resume_text.isEmpty then
        "Error: Could not extract any text from the resume.".data
      else
        generate_feedback_genai env.genai_available env.genai_request resume_text
          (build_analysis env resume_text job_description) (some job_description)

/-!  Verification helpers. -/

/-- Normal-form check read with a previous-char-was-space flag: every
whitespace character is a plain space that does not follow another space. -/
def goodAux : Bool → List Char → Bool
  | _, [] => true
  | b, c :: rest =>
    if isPySpace c then c == ' ' && !b && goodAux true rest
    else goodAux false rest

/-- A concrete embedding-model oracle used to instantiate theorems. -/
def encW : List Char → List Char → Except (List Char) ℚ := fun _ _ => .ok 0

/-- A concrete grammar-service oracle used to instantiate theorems. -/
def svcW : List Char → Except (List Char) (List GrammarMatch) := fun _ => .ok []

/-- A concrete analysis record with thresholds met and high coverage, used to
instantiate theorems. -/
def aW : AnalysisRecord :=
  { word_count := 300, action_verbs := 6, missing_sections := []
    grammar := { errors_count := 0, error := none, sample_errors := [] }
    keyword_match :=
      { semantic_similarity := 1/2, keyword_coverage_percent := 80
        job_keyword_count := some 5, error := none } }

/-- A concrete analysis record below the action-verb threshold, used to
instantiate theorems. -/
def aW2 : AnalysisRecord :=
  { word_count := 300, action_verbs := 2, missing_sections := []
    grammar := { errors_count := 0, error := none, sample_errors := [] }
    keyword_match :=
      { semantic_similarity := 1/2, keyword_coverage_percent := 80
        job_keyword_count := some 5, error := none } }

/-- A concrete healthy environment used to instantiate theorems. -/
def envW : Env :=
  { gemini_api_key := some "key".data
    extract_result := .ok "ok".data
    lang_tool_available := true
    grammar_service := svcW
    embed_model := some encW
    genai_available := true
    genai_request := .ok "fine".data }

end ResumeAnalyzer

namespace ResumeAnalyzer

theorem good_collapse (t : List Char) : ∀ b, goodAux b (collapseAux b t) = true := by
  induction t with
  | nil => intro b; rfl
  | cons c rest ih =>
    intro b
    by_cases hc : isPySpace c = true
    · cases b with
      | true => simpa [collapseAux, hc] using ih true
      | false =>
        have hsp : isPySpace ' ' = true := by decide
        simpa [collapseAux, goodAux, hc, hsp] using ih true
    · simp only [Bool.not_eq_true] at hc
      simpa [collapseAux, goodAux, hc] using ih false

theorem collapse_of_good (t : List Char) :
    ∀ b, goodAux b t = true → collapseAux b t = t := by
  induction t with
  | nil => intro b _; rfl
  | cons c rest ih =>
    intro b hg
    by_cases hc : isPySpace c = true
    · simp only [goodAux, hc, if_true, Bool.and_eq_true, beq_iff_eq,
        Bool.not_eq_true'] at hg
      obtain ⟨⟨hce, hb⟩, hrest⟩ := hg
      subst hb; subst hce
      have hsp : isPySpace ' ' = true := by decide
      simp [collapseAux, hsp, ih true hrest]
    · simp only [Bool.not_eq_true] at hc
      simp only [goodAux, hc, Bool.false_eq_true, if_false] at hg
      simp [collapseAux, hc, ih false hg]

theorem good_lstrip (t : List Char) :
    ∀ b, goodAux b t = true → ∀ b', goodAux b' (lstrip t) = true := by
  induction t with
  | nil => intro b _ b'; rfl
  | cons c rest ih =>
    intro b hg b'
    by_cases hc : isPySpace c = true
    · simp only [goodAux, hc, if_true, Bool.and_eq_true] at hg
      simpa [lstrip, List.dropWhile_cons, hc] using ih true hg.2 b'
    · simp only [Bool.not_eq_true] at hc
      simp only [goodAux, hc, Bool.false_eq_true, if_false] at hg
      simpa [lstrip, List.dropWhile_cons, hc, goodAux] using hg

theorem good_rstrip (t : List Char) :
    ∀ b, goodAux b t = true → goodAux b (rstrip t) = true := by
  induction t with
  | nil => intro b _; rfl
  | cons c rest ih =>
    intro b hg
    by_cases hc : isPySpace c = true
    · simp only [goodAux, hc, if_true, Bool.and_eq_true, beq_iff_eq,
        Bool.not_eq_true'] at hg
      obtain ⟨⟨hce, hb⟩, hrest⟩ := hg
      subst hb; subst hce
      have hsp : isPySpace ' ' = true := by decide
      by_cases he : rstrip rest = []
      · simp [rstrip, he, hsp, goodAux]
      · simp [rstrip, he, hsp, goodAux, ih true hrest]
    · simp only [Bool.not_eq_true] at hc
      simp only [goodAux, hc, Bool.false_eq_true, if_false] at hg
      by_cases he : rstrip rest = []
      · simp [rstrip, he, hc, goodAux]
      · simp [rstrip, he, hc, goodAux, ih false hg]

theorem mem_collapse_or {c : Char} (t : List Char) :
    ∀ b, c ∈ collapseAux b t → c = ' ' ∨ c ∈ t := by
  induction t with
  | nil => intro b h; simp [collapseAux] at h
  | cons d rest ih =>
    intro b h
    by_cases hd : isPySpace d = true
    · cases b with
      | true =>
        simp only [collapseAux, hd, if_true] at h
        rcases ih true h with h' | h'
        · exact Or.inl h'
        · exact Or.inr (List.mem_cons_of_mem _ h')
      | false =>
        simp only [collapseAux, hd, if_true, Bool.false_eq_true, if_false,
          List.mem_cons] at h
        rcases h with h' | h'
        · exact Or.inl h'
        · rcases ih true h' with h'' | h''
          · exact Or.inl h''
          · exact Or.inr (List.mem_cons_of_mem _ h'')
    · simp only [Bool.not_eq_true] at hd
      simp only [collapseAux, hd, Bool.false_eq_true, if_false, List.mem_cons] at h
      rcases h with h' | h'
      · exact Or.inr (h' ▸ List.mem_cons_self _ _)
      · rcases ih false h' with h'' | h''
        · exact Or.inl h''
        · exact Or.inr (List.mem_cons_of_mem _ h'')

theorem mem_collapse_of_not_ws {c : Char} (t : List Char)
    (hws : isPySpace c = false) : ∀ b, c ∈ t → c ∈ collapseAux b t := by
  induction t with
  | nil => intro b h; simp at h
  | cons d rest ih =>
    intro b h
    rcases List.mem_cons.mp h with h' | h'
    · subst h'
      simp [collapseAux, hws]
    · by_cases hd : isPySpace d = true
      · cases b with
        | true => simpa [collapseAux, hd] using ih true h'
        | false => simp [collapseAux, hd, ih true h']
      · simp only [Bool.not_eq_true] at hd
        simp [collapseAux, hd, ih false h']

theorem rstrip_cons_eq (d : Char) (rest : List Char) :
    rstrip (d :: rest) =
      if (rstrip rest).isEmpty && isPySpace d then [] else d :: rstrip rest := rfl

theorem mem_of_mem_rstrip {c : Char} (t : List Char) : c ∈ rstrip t → c ∈ t := by
  induction t with
  | nil => intro h; simp [rstrip] at h
  | cons d rest ih =>
    intro h
    rw [rstrip_cons_eq] at h
    by_cases he : ((rstrip rest).isEmpty && isPySpace d) = true
    · rw [if_pos he] at h; simp at h
    · rw [if_neg he] at h
      rcases List.mem_cons.mp h with h1 | h1
      · exact h1 ▸ List.mem_cons_self _ _
      · exact List.mem_cons_of_mem _ (ih h1)

theorem mem_rstrip_of_not_ws {c : Char} (t : List Char)
    (hws : isPySpace c = false) : c ∈ t → c ∈ rstrip t := by
  induction t with
  | nil => intro h; simp at h
  | cons d rest ih =>
    intro h
    rcases List.mem_cons.mp h with h' | h'
    · subst h'
      by_cases he : (rstrip rest).isEmpty && isPySpace c
      · rw [Bool.and_eq_true] at he; rw [he.2] at hws; cases hws
      · simp [rstrip, he]
    · have hr := ih h'
      by_cases he : (rstrip rest).isEmpty && isPySpace d
      · rw [Bool.and_eq_true, List.isEmpty_iff] at he
        rw [he.1] at hr; simp at hr
      · simp [rstrip, he, hr]

theorem mem_lstrip_of_not_ws {c : Char} (t : List Char)
    (hws : isPySpace c = false) : c ∈ t → c ∈ lstrip t := by
  induction t with
  | nil => intro h; simp at h
  | cons d rest ih =>
    intro h
    rcases List.mem_cons.mp h with h' | h'
    · subst h'
      simp [lstrip, List.dropWhile_cons, hws]
    · by_cases hd : isPySpace d = true
      · simpa [lstrip, List.dropWhile_cons, hd] using ih h'
      · simp only [Bool.not_eq_true] at hd
        simp [lstrip, List.dropWhile_cons, hd, List.mem_cons_of_mem _ h']

theorem mem_of_mem_lstrip {c : Char} (t : List Char) : c ∈ lstrip t → c ∈ t := by
  induction t with
  | nil => intro h; simp [lstrip] at h
  | cons d rest ih =>
    intro h
    by_cases hd : isPySpace d = true
    · simp only [lstrip, List.dropWhile_cons, hd, if_true] at h
      exact List.mem_cons_of_mem _ (ih h)
    · simp only [Bool.not_eq_true] at hd
      simpa [lstrip, List.dropWhile_cons, hd] using h

theorem lstrip_head_not_ws (t : List Char) :
    ∀ {c rest}, lstrip t = c :: rest → isPySpace c = false := by
  induction t with
  | nil => intro c rest h; simp [lstrip] at h
  | cons d tl ih =>
    intro c rest h
    by_cases hd : isPySpace d = true
    · simp only [lstrip, List.dropWhile_cons, hd, if_true] at h
      exact ih h
    · simp only [Bool.not_eq_true] at hd
      simp only [lstrip, List.dropWhile_cons, hd, Bool.false_eq_true, if_false,
        List.cons.injEq] at h
      exact h.1 ▸ hd

theorem lstrip_of_head {c : Char} (t : List Char) (hc : isPySpace c = false) :
    lstrip (c :: t) = c :: t := by
  simp [lstrip, List.dropWhile_cons, hc]

theorem rstrip_idem (t : List Char) : rstrip (rstrip t) = rstrip t := by
  induction t with
  | nil => rfl
  | cons d rest ih =>
    rw [rstrip_cons_eq]
    by_cases he : ((rstrip rest).isEmpty && isPySpace d) = true
    · rw [if_pos he]; rfl
    · rw [if_neg he, rstrip_cons_eq, ih]
      rw [if_neg he]

theorem pyMapNul_of_no_nul (t : List Char) (h : ∀ c ∈ t, c ≠ '\x00') :
    pyMapNul t = t := by
  induction t with
  | nil => rfl
  | cons d rest ih =>
    have hd : d ≠ '\x00' := h d (List.mem_cons_self _ _)
    simp only [pyMapNul, List.map_cons, if_neg hd]
    exact congrArg _ (ih fun c hc => h c (List.mem_cons_of_mem _ hc))

theorem mem_pyMapNul_ne_nul {c : Char} (t : List Char) :
    c ∈ pyMapNul t → c ≠ '\x00' := by
  intro h
  rcases List.mem_map.mp h with ⟨x, _, hx⟩
  by_cases hn : x = '\x00'
  · rw [if_pos hn] at hx; rw [← hx]; decide
  · rw [if_neg hn] at hx; exact hx ▸ hn

theorem mem_clean_text {c : Char} (t : List Char) :
    c ∈ clean_text t → (c = ' ' ∨ c ∈ pyMapNul t) ∧ c ≠ '\x00' := by
  intro h
  have h1 : c ∈ collapseAux false (pyMapNul t) :=
    mem_of_mem_lstrip _ (mem_of_mem_rstrip _ h)
  refine ⟨mem_collapse_or _ false h1, ?_⟩
  rcases mem_collapse_or _ false h1 with h2 | h2
  · rw [h2]; decide
  · exact mem_pyMapNul_ne_nul _ h2

theorem good_clean (t : List Char) : goodAux false (clean_text t) = true :=
  good_rstrip _ false (good_lstrip _ false (good_collapse _ false) false)

theorem lstrip_clean (t : List Char) : lstrip (clean_text t) = clean_text t := by
  rcases hc : clean_text t with _ | ⟨c, rest⟩
  · rfl
  · have : clean_text t = rstrip (lstrip (collapseAux false (pyMapNul t))) := rfl
    rw [this] at hc
    rcases hl : lstrip (collapseAux false (pyMapNul t)) with _ | ⟨d, s⟩
    · rw [hl] at hc; simp [rstrip] at hc
    · rw [hl, rstrip_cons_eq] at hc
      by_cases he : ((rstrip s).isEmpty && isPySpace d) = true
      · rw [if_pos he] at hc; cases hc
      · rw [if_neg he] at hc
        have hd : isPySpace d = false := lstrip_head_not_ws _ hl
        injection hc with h1 h2
        subst h1; subst h2
        exact lstrip_of_head _ hd

theorem rstrip_clean (t : List Char) : rstrip (clean_text t) = clean_text t :=
  rstrip_idem _

theorem pyStrip_clean (t : List Char) : pyStrip (clean_text t) = clean_text t := by
  unfold pyStrip
  rw [lstrip_clean, rstrip_clean]

/-- Claim C4's core: `clean_text` is idempotent. -/
theorem clean_text_idem_aux (t : List Char) :
    clean_text (clean_text t) = clean_text t := by
  have hnul : pyMapNul (clean_text t) = clean_text t :=
    pyMapNul_of_no_nul _ fun c hc => (mem_clean_text t hc).2
  have hcol : collapseAux false (clean_text t) = clean_text t :=
    collapse_of_good _ false (good_clean t)
  show pyStrip (collapseAux false (pyMapNul (clean_text t))) = clean_text t
  rw [hnul, hcol, pyStrip_clean]

theorem collapse_allws_true (t : List Char) (h : ∀ c ∈ t, isPySpace c = true) :
    collapseAux true t = [] := by
  induction t with
  | nil => rfl
  | cons c rest ih =>
    have hc := h c (List.mem_cons_self _ _)
    simp only [collapseAux, hc, if_true]
    exact ih fun d hd => h d (List.mem_cons_of_mem _ hd)

theorem strip_collapse_allws (t : List Char) (h : ∀ c ∈ t, isPySpace c = true) :
    pyStrip (collapseAux false t) = [] := by
  cases t with
  | nil => rfl
  | cons c rest =>
    have hc := h c (List.mem_cons_self _ _)
    have h1 : collapseAux false (c :: rest) = ' ' :: collapseAux true rest := by
      simp [collapseAux, hc]
    rw [h1, collapse_allws_true rest fun d hd => h d (List.mem_cons_of_mem _ hd)]
    rfl

theorem pyMapNul_allws (t : List Char)
    (h : ∀ c ∈ t, isPySpace c = true ∨ c = '\x00') :
    ∀ c ∈ pyMapNul t, isPySpace c = true := by
  intro c hc
  rcases List.mem_map.mp hc with ⟨x, hx, hfx⟩
  by_cases hn : x = '\x00'
  · rw [if_pos hn] at hfx; rw [← hfx]; decide
  · rw [if_neg hn] at hfx
    subst hfx
    rcases h x hx with h1 | h1
    · exact h1
    · exact absurd h1 hn

/-- Claim C10's core: the normalized text is empty exactly when every input
character is whitespace or NUL. -/
theorem clean_text_empty_iff_aux (t : List Char) :
    clean_text t = [] ↔ ∀ c ∈ t, isPySpace c = true ∨ c = '\x00' := by
  constructor
  · intro he c hc
    by_contra hcon
    push_neg at hcon
    obtain ⟨hws, hnn⟩ := hcon
    have hws2 : isPySpace c = false := by
      cases hq : isPySpace c
      · rfl
      · exact absurd hq hws
    clear hws
    rename' hws2 => hws
    have h1 : c ∈ pyMapNul t := List.mem_map.mpr ⟨c, hc, by rw [if_neg hnn]⟩
    have h2 : c ∈ clean_text t :=
      mem_rstrip_of_not_ws _ hws
        (mem_lstrip_of_not_ws _ hws (mem_collapse_of_not_ws _ hws false h1))
    rw [he] at h2
    exact absurd h2 (List.not_mem_nil c)
  · intro h
    show pyStrip (collapseAux false (pyMapNul t)) = []
    exact strip_collapse_allws _ (pyMapNul_allws t h)

theorem good_no_double (t : List Char) :
    ∀ b, goodAux b t = true → strContains t (' ' :: ' ' :: []) = false := by
  induction t with
  | nil => intro b _; rfl
  | cons c rest ih =>
    intro b hg
    by_cases hc : isPySpace c = true
    · simp only [goodAux, hc, if_true, Bool.and_eq_true, beq_iff_eq,
        Bool.not_eq_true'] at hg
      obtain ⟨⟨hce, hb⟩, hrest⟩ := hg
      subst hb; subst hce
      show (leadsWith (' ' :: ' ' :: []) (' ' :: rest) ||
        strContains rest (' ' :: ' ' :: [])) = false
      rw [ih true hrest, Bool.or_false]
      cases rest with
      | nil => rfl
      | cons d s =>
        by_cases hd : isPySpace d = true
        · simp only [goodAux, hd, if_true, Bool.and_eq_true, beq_iff_eq,
            Bool.not_eq_true'] at hrest
          exact absurd hrest.1.2 (by decide)
        · have hds : (' ' == d) = false := by
            cases hq : ' ' == d
            · rfl
            · rw [beq_iff_eq] at hq
              rw [← hq] at hd
              exact absurd (by decide) hd
          simp [leadsWith, hds]
    · simp only [Bool.not_eq_true] at hc
      simp only [goodAux, hc, Bool.false_eq_true, if_false] at hg
      have hcs : (c == ' ') = false := by
        cases hq : c == ' '
        · rfl
        · rw [beq_iff_eq] at hq; subst hq; cases hc
      show (leadsWith (' ' :: ' ' :: []) (c :: rest) ||
        strContains rest (' ' :: ' ' :: [])) = false
      have hlw : leadsWith (' ' :: ' ' :: []) (c :: rest) = false := by
        show ((' ' == c) && leadsWith (' ' :: []) rest) = false
        have : (' ' == c) = false := by
          cases hq : ' ' == c
          · rfl
          · rw [beq_iff_eq] at hq; rw [← hq] at hc; cases hc
        rw [this, Bool.false_and]
      rw [hlw, ih false hg, Bool.or_self]

theorem good_ws_space (t : List Char) :
    ∀ b, goodAux b t = true → ∀ c ∈ t, isPySpace c = true → c = ' ' := by
  induction t with
  | nil => intro _ _ c hc; simp at hc
  | cons d rest ih =>
    intro b hg c hc
    by_cases hd : isPySpace d = true
    · simp only [goodAux, hd, if_true, Bool.and_eq_true, beq_iff_eq,
        Bool.not_eq_true'] at hg
      obtain ⟨⟨hde, _⟩, hrest⟩ := hg
      rcases List.mem_cons.mp hc with h1 | h1
      · intro _; exact h1 ▸ hde
      · exact ih true hrest c h1
    · simp only [Bool.not_eq_true] at hd
      simp only [goodAux, hd, Bool.false_eq_true, if_false] at hg
      rcases List.mem_cons.mp hc with h1 | h1
      · intro hcw; rw [h1] at hcw; rw [hcw] at hd; cases hd
      · exact ih false hg c h1

theorem leadsWith_append (p s : List Char) : leadsWith p (p ++ s) = true := by
  induction p with
  | nil => rfl
  | cons c rest ih => simp [leadsWith, ih]

/-- Claim C3 (corrected): the output of `clean_text` has no NUL, every
whitespace character in it is a plain space, there is no run of two spaces,
and both ends are trimmed; but control characters outside the whitespace
class are NOT removed (see the counterexample). -/
theorem clean_text_no_ws_controls (t : List Char) :
    '\x00' ∉ clean_text t ∧
    (∀ c ∈ clean_text t, isPySpace c = true → c = ' ') ∧
    strContains (clean_text t) (' ' :: ' ' :: []) = false ∧
    lstrip (clean_text t) = clean_text t ∧ rstrip (clean_text t) = clean_text t :=
  ⟨fun h => (mem_clean_text t h).2 rfl,
   fun c hc => good_ws_space _ false (good_clean t) c hc,
   good_no_double _ false (good_clean t),
   lstrip_clean t, rstrip_clean t⟩

/-- Witness for C3 at a concrete input: `clean_text "a\tb" = "a b"` contains
the space, and the theorem's whitespace clause holds there. -/
theorem clean_text_no_ws_controls_witness :
    ' ' ∈ clean_text "a\tb".data ∧ ' ' = ' ' :=
  ⟨by decide, (clean_text_no_ws_controls "a\tb".data).2.1 ' ' (by decide) (by decide)⟩

/-- Counterexample for C3 as stated: the control character U+0001 is not
whitespace, so `clean_text` keeps it — the output contains a raw control
character. -/
theorem clean_text_control_char_cex :
    clean_text "a\x01b".data = "a\x01b".data ∧
    '\x01' ∈ clean_text "a\x01b".data ∧ '\x01'.toNat < 32 := by
  refine ⟨by decide, by decide, by decide⟩

/-- Claim C4: `clean_text` is idempotent, and
`clean_text "a\x00b\n\nc" = "a b c"`. -/
theorem clean_text_idempotent :
    (∀ t : List Char, clean_text (clean_text t) = clean_text t) ∧
    clean_text "a\x00b\n\nc".data = "a b c".data :=
  ⟨clean_text_idem_aux, by decide⟩

/-- Claim C10: `clean_text` returns the empty string exactly when the input
consists solely of whitespace characters and NUL bytes; consequently, with a
configured credential and mechanically successful extraction, the pipeline
returns the empty-extraction abort message exactly on such raw text and
otherwise proceeds to the feedback stage. -/
theorem clean_text_empty_iff (t : List Char) :
    (clean_text t = [] ↔ ∀ c ∈ t, isPySpace c = true ∨ c = '\x00') ∧
    (∀ (env : Env) (jd raw : List Char),
      pyFalsyKey env.gemini_api_key = false → env.extract_result = .ok raw →
      ((∀ c ∈ raw, isPySpace c = true ∨ c = '\x00') →
        analyze_resume env jd =
          "Error: Could not extract any text from the resume.".data) ∧
      ((¬ ∀ c ∈ raw, isPySpace c = true ∨ c = '\x00') →
        analyze_resume env jd =
          generate_feedback_genai env.genai_available env.genai_request
            (clean_text raw) (build_analysis env (clean_text raw) jd) (some jd))) := by
  refine ⟨clean_text_empty_iff_aux t, ?_⟩
  intro env jd raw hkey hex
  constructor
  · intro hall
    have he : clean_text raw = [] := (clean_text_empty_iff_aux raw).mpr hall
    simp only [analyze_resume, hkey, Bool.false_eq_true, if_false, hex, he,
      List.isEmpty_nil, if_true]
  · intro hnall
    have hne : clean_text raw ≠ [] := fun h => hnall ((clean_text_empty_iff_aux raw).mp h)
    have hni : (clean_text raw).isEmpty = false := by
      cases hq : (clean_text raw).isEmpty
      · rfl
      · exact absurd (List.isEmpty_iff.mp hq) hne
    simp only [analyze_resume, hkey, Bool.false_eq_true, if_false, hex, hni]

/-- Witness for C10: a raw text of space, NUL and newline triggers the
empty-extraction abort. -/
theorem clean_text_empty_iff_witness :
    analyze_resume { envW with extract_result := .ok " \x00\n".data } "j".data =
      "Error: Could not extract any text from the resume.".data :=
  ((clean_text_empty_iff []).2 { envW with extract_result := .ok " \x00\n".data }
    "j".data " \x00\n".data rfl rfl).1 (by decide)

/-- Claim C1 (corrected): `analyze_resume` is a total function into strings;
the credential check comes first (it decides the result for every extraction
outcome), and each fatal path returns its fixed message.  The configuration
and blank-text messages begin with `"Error:"`, but the extraction-exception
message begins with `"Error during text extraction:"` — it starts with
`"Error"` and not with `"Error:"` (see the counterexample). -/
theorem analyze_resume_error_paths (env : Env) (jd : List Char) :
    (pyFalsyKey env.gemini_api_key = true →
      analyze_resume env jd =
        "Error: GEMINI_API_KEY not configured in Django settings.".data) ∧
    (∀ e, pyFalsyKey env.gemini_api_key = false → env.extract_result = .error e →
      analyze_resume env jd = "Error during text extraction: ".data ++ e ∧
      leadsWith "Error".data (analyze_resume env jd) = true) ∧
    (∀ raw, pyFalsyKey env.gemini_api_key = false → env.extract_result = .ok raw →
      clean_text raw = [] →
      analyze_resume env jd =
        "Error: Could not extract any text from the resume.".data ∧
      leadsWith "Error:".data (analyze_resume env jd) = true) := by
  refine ⟨?_, ?_, ?_⟩
  · intro h
    simp only [analyze_resume, h, if_true]
  · intro e hk he
    have hval : analyze_resume env jd = "Error during text extraction: ".data ++ e := by
      simp only [analyze_resume, hk, Bool.false_eq_true, if_false, he]
    refine ⟨hval, ?_⟩
    rw [hval,
      show "Error during text extraction: ".data =
        "Error".data ++ " during text extraction: ".data by decide,
      List.append_assoc]
    exact leadsWith_append _ _
  · intro raw hk he hclean
    have hval : analyze_resume env jd =
        "Error: Could not extract any text from the resume.".data := by
      simp only [analyze_resume, hk, Bool.false_eq_true, if_false, he, hclean,
        List.isEmpty_nil, if_true]
    refine ⟨hval, ?_⟩
    rw [hval,
      show "Error: Could not extract any text from the resume.".data =
        "Error:".data ++ " Could not extract any text from the resume.".data by decide]
    exact leadsWith_append _ _

/-- Witness for C1: all three fatal paths at concrete environments. -/
theorem analyze_resume_error_paths_witness :
    analyze_resume { envW with gemini_api_key := none } "j".data =
        "Error: GEMINI_API_KEY not configured in Django settings.".data ∧
    analyze_resume { envW with extract_result := .error "x".data } "j".data =
        "Error during text extraction: x".data ∧
    analyze_resume { envW with extract_result := .ok "".data } "j".data =
        "Error: Could not extract any text from the resume.".data :=
  ⟨(analyze_resume_error_paths { envW with gemini_api_key := none } "j".data).1 rfl,
   ((analyze_resume_error_paths { envW with extract_result := .error "x".data }
      "j".data).2.1 "x".data rfl rfl).1,
   ((analyze_resume_error_paths { envW with extract_result := .ok "".data }
      "j".data).2.2 "".data rfl rfl (by decide)).1⟩

/-- Counterexample for C1 as stated: with a configured credential and an
extraction exception, the returned string does not begin with `"Error:"`. -/
theorem analyze_resume_error_prefix_cex :
    analyze_resume { envW with extract_result := .error "boom".data } "j".data =
      "Error during text extraction: boom".data ∧
    leadsWith "Error:".data
      (analyze_resume { envW with extract_result := .error "boom".data } "j".data) =
      false :=
  ⟨by decide, by decide⟩

/-- Claim C7: `grammar_check` is total; on unavailability or any service
failure it returns the sentinel record (count `-1`, an error message, no
samples); on success it returns the total match count and at most 10
samples, each of the form `ruleId ++ " | " ++ message`, the message
truncated to 200 characters. -/
theorem grammar_check_total (avail : Bool)
    (service : List Char → Except (List Char) (List GrammarMatch))
    (text : List Char) :
    ((avail = false ∨ ∃ e, service text = .error e) →
      (grammar_check avail service text).errors_count = -1 ∧
      (grammar_check avail service text).error.isSome = true ∧
      (grammar_check avail service text).sample_errors = []) ∧
    (∀ ms, avail = true → service text = .ok ms →
      (grammar_check avail service text).errors_count = ms.length ∧
      (grammar_check avail service text).sample_errors.length ≤ 10 ∧
      ∀ s ∈ (grammar_check avail service text).sample_errors,
        ∃ m ∈ ms, s = m.ruleId ++ " | ".data ++ m.message.take 200 ∧
          (m.message.take 200).length ≤ 200) := by
  constructor
  · intro h
    cases avail with
    | false => simp [grammar_check]
    | true =>
      rcases h with h | ⟨e, he⟩
      · cases h
      · simp [grammar_check, he]
  · intro ms ha hok
    subst ha
    simp only [grammar_check, Bool.not_true, Bool.false_eq_true, if_false, hok]
    refine ⟨by trivial, ?_, ?_⟩
    · rw [List.length_map, List.length_take]
      exact min_le_left _ _
    · intro s hs
      rcases List.mem_map.mp hs with ⟨m, hm, rfl⟩
      refine ⟨m, (List.take_sublist _ _).subset hm, rfl, ?_⟩
      rw [List.length_take]
      exact min_le_left _ _

/-- Witness for C7: the unavailability sentinel at a concrete input. -/
theorem grammar_check_total_witness :
    (grammar_check false svcW "t".data).errors_count = -1 ∧
    (grammar_check false svcW "t".data).sample_errors = [] :=
  ⟨((grammar_check_total false svcW "t".data).1 (Or.inl rfl)).1,
   ((grammar_check_total false svcW "t".data).1 (Or.inl rfl)).2.2⟩

theorem contains_filter_of_mem {l : List (List Char)} {p : List Char → Bool}
    {x : List Char} (hx : x ∈ l) : (l.filter p).contains x = p x := by
  cases hp : p x
  · have hnm : x ∉ l.filter p := fun hmem => by
      have h2 := (List.mem_filter.mp hmem).2
      rw [hp] at h2; cases h2
    show (l.filter p).elem x = false
    cases hq : (l.filter p).elem x
    · rfl
    · exact absurd (List.mem_of_elem_eq_true hq) hnm
  · show (l.filter p).elem x = true
    exact List.elem_eq_true_of_mem (List.mem_filter.mpr ⟨hx, hp⟩)

/-- Claim C8: `detect_missing_sections` returns exactly the canonical labels
whose lower-cased form is not a substring of the lower-cased text, in
canonical order; the given two-section text yields the five-element
complement. -/
theorem detect_missing_sections_complement :
    (∀ text : List Char,
      detect_missing_sections text =
        REQUIRED_SECTIONS.filter
          (fun s => !(strContains (lowerStr text) (lowerStr s)))) ∧
    detect_missing_sections "I list my Skills and my Education here".data =
      ["+91".data, "summary".data, "experience".data, "Projects".data,
       "LinkedIn".data] := by
  constructor
  · intro text
    unfold detect_missing_sections
    exact List.filter_congr fun x hx => by
      rw [contains_filter_of_mem hx]
  · decide

/-- Claim C9: whenever the generative backend is unavailable, or it is
available and the request fails, `generate_feedback_genai` returns a string
that begins with a notice of the fallback and ends with the full
deterministic suggestion list; no exception escapes (the function is
total). -/
theorem genai_fallback_contains (avail : Bool)
    (request : Except (List Char) (List Char)) (r : List Char)
    (a : AnalysisRecord) (j : Option (List Char)) :
    (avail = false →
      generate_feedback_genai avail request r a j =
        "Gemini client library not installed; using fallback suggestions:\n\n".data ++
          generate_feedback_fallback r a j ∧
      leadsWith "Gemini client library not installed".data
        (generate_feedback_genai avail request r a j) = true) ∧
    (∀ e, avail = true → request = .error e →
      (∃ pre, generate_feedback_genai avail request r a j =
        pre ++ generate_feedback_fallback r a j) ∧
      leadsWith "Gemini request failed".data
        (generate_feedback_genai avail request r a j) = true) := by
  constructor
  · intro h
    subst h
    have hval : generate_feedback_genai false request r a j =
        "Gemini client library not installed; using fallback suggestions:\n\n".data ++
          generate_feedback_fallback r a j := rfl
    refine ⟨hval, ?_⟩
    rw [hval,
      show "Gemini client library not installed; using fallback suggestions:\n\n".data =
        "Gemini client library not installed".data ++
          "; using fallback suggestions:\n\n".data by decide,
      List.append_assoc]
    exact leadsWith_append _ _
  · intro e ha he
    subst ha; subst he
    have hval : generate_feedback_genai true (.error e) r a j =
        "Gemini request failed: ".data ++ e ++ "\n\nFallback suggestions:\n".data ++
          generate_feedback_fallback r a j := rfl
    constructor
    · exact ⟨"Gemini request failed: ".data ++ e ++ "\n\nFallback suggestions:\n".data,
        by rw [hval, List.append_assoc]⟩
    · rw [hval,
        show "Gemini request failed: ".data =
          "Gemini request failed".data ++ ": ".data by decide,
        List.append_assoc, List.append_assoc, List.append_assoc]
      exact leadsWith_append _ _

/-- Witness for C9: both fallback paths at concrete inputs. -/
theorem genai_fallback_contains_witness :
    leadsWith "Gemini client library not installed".data
      (generate_feedback_genai false (.ok "x".data) "r".data
        (build_analysis envW "r".data "j".data) (some "j".data)) = true ∧
    leadsWith "Gemini request failed".data
      (generate_feedback_genai true (.error "down".data) "r".data
        (build_analysis envW "r".data "j".data) (some "j".data)) = true :=
  ⟨((genai_fallback_contains false (.ok "x".data) "r".data
      (build_analysis envW "r".data "j".data) (some "j".data)).1 rfl).2,
   ((genai_fallback_contains true (.error "down".data) "r".data
      (build_analysis envW "r".data "j".data) (some "j".data)).2 "down".data rfl rfl).2⟩

theorem length_filter_mono {α : Type} {l : List α} {p q : α → Bool}
    (h : ∀ a ∈ l, p a = true → q a = true) :
    (l.filter p).length ≤ (l.filter q).length := by
  induction l with
  | nil => simp
  | cons a l ih =>
    have ih2 := ih fun b hb => h b (List.mem_cons_of_mem _ hb)
    by_cases hp : p a = true
    · have hq := h a (List.mem_cons_self _ _) hp
      simp only [List.filter_cons, hp, hq, if_true, List.length_cons]
      omega
    · simp only [Bool.not_eq_true] at hp
      simp only [List.filter_cons, hp, Bool.false_eq_true, if_false]
      by_cases hq : q a = true
      · simp only [hq, if_true, List.length_cons]
        omega
      · simp only [Bool.not_eq_true] at hq
        simp only [hq, Bool.false_eq_true, if_false]
        exact ih2

theorem ckm_ok (enc : List Char → List Char → Except (List Char) ℚ)
    (r j : List Char) (s : ℚ) (h : enc r j = .ok s) :
    compute_keyword_match r j (some enc) =
      if 0 < (job_keywords j).length then
        { semantic_similarity := s,
          keyword_coverage_percent :=
            (((job_keywords j).filter
              (fun k => strContains (lowerStr r) k)).length : ℚ) /
              ((job_keywords j).length : ℚ) * 100,
          job_keyword_count := some (job_keywords j).length, error := none }
      else
        { semantic_similarity := s, keyword_coverage_percent := 0,
          job_keyword_count := some 0, error := none } := by
  simp [compute_keyword_match, h]

/-- Claim C5: with the embedding model loaded and a successful encoding,
keyword coverage lies in [0, 100]; for the same job text, replacing the
resume text so that every job-keyword substring hit is preserved never
decreases coverage; an empty job description gives coverage 0.0 and keyword
count 0. -/
theorem compute_keyword_match_coverage
    (enc : List Char → List Char → Except (List Char) ℚ)
    (r j : List Char) (s : ℚ) (h : enc r j = .ok s) :
    (0 ≤ (compute_keyword_match r j (some enc)).keyword_coverage_percent ∧
      (compute_keyword_match r j (some enc)).keyword_coverage_percent ≤ 100) ∧
    (∀ r2 s2, enc r2 j = .ok s2 →
      (∀ k ∈ job_keywords j, strContains (lowerStr r) k = true →
        strContains (lowerStr r2) k = true) →
      (compute_keyword_match r j (some enc)).keyword_coverage_percent ≤
        (compute_keyword_match r2 j (some enc)).keyword_coverage_percent) ∧
    (j = [] →
      (compute_keyword_match r j (some enc)).keyword_coverage_percent = 0 ∧
      (compute_keyword_match r j (some enc)).job_keyword_count = some 0) := by
  refine ⟨?_, ?_, ?_⟩
  · rw [ckm_ok enc r j s h]
    by_cases hpos : 0 < (job_keywords j).length
    · rw [if_pos hpos]
      have hn : (0 : ℚ) < ((job_keywords j).length : ℚ) := by exact_mod_cast hpos
      have hpn : (((job_keywords j).filter
          (fun k => strContains (lowerStr r) k)).length : ℚ) ≤
          ((job_keywords j).length : ℚ) := by
        exact_mod_cast List.length_filter_le _ _
      constructor
      · positivity
      · have h1 : (((job_keywords j).filter
            (fun k => strContains (lowerStr r) k)).length : ℚ) /
            ((job_keywords j).length : ℚ) ≤ 1 := by
          rw [div_le_one hn]
          exact hpn
        calc (((job_keywords j).filter
            (fun k => strContains (lowerStr r) k)).length : ℚ) /
            ((job_keywords j).length : ℚ) * 100 ≤ 1 * 100 := by
              exact mul_le_mul_of_nonneg_right h1 (by norm_num)
          _ = 100 := by norm_num
    · rw [if_neg hpos]
      norm_num
  · intro r2 s2 h2 hmono
    rw [ckm_ok enc r j s h, ckm_ok enc r2 j s2 h2]
    by_cases hpos : 0 < (job_keywords j).length
    · rw [if_pos hpos, if_pos hpos]
      have hn : (0 : ℚ) < ((job_keywords j).length : ℚ) := by exact_mod_cast hpos
      have hle : (((job_keywords j).filter
          (fun k => strContains (lowerStr r) k)).length : ℚ) ≤
          (((job_keywords j).filter
            (fun k => strContains (lowerStr r2) k)).length : ℚ) := by
        exact_mod_cast length_filter_mono hmono
      exact mul_le_mul_of_nonneg_right ((div_le_div_iff_of_pos_right hn).mpr hle)
        (by norm_num)
    · rw [if_neg hpos, if_neg hpos]
  · intro hj
    subst hj
    rw [ckm_ok enc r [] s h]
    exact ⟨rfl, rfl⟩

/-- Witness for C5: empty job description and a concrete monotone pair. -/
theorem compute_keyword_match_coverage_witness :
    ((compute_keyword_match "r".data [] (some encW)).keyword_coverage_percent = 0 ∧
      (compute_keyword_match "r".data [] (some encW)).job_keyword_count = some 0) ∧
    0 ≤ (compute_keyword_match "python dev".data "python".data
      (some encW)).keyword_coverage_percent ∧
    (compute_keyword_match "java".data "python".data
        (some encW)).keyword_coverage_percent ≤
      (compute_keyword_match "java python".data "python".data
        (some encW)).keyword_coverage_percent :=
  ⟨(compute_keyword_match_coverage encW "r".data [] 0 rfl).2.2 rfl,
   ((compute_keyword_match_coverage encW "python dev".data "python".data 0 rfl).1).1,
   (compute_keyword_match_coverage encW "java".data "python".data 0 rfl).2.1
     "java python".data 0 rfl (by decide)⟩

theorem ckm_count_error (r j : List Char)
    (emb : Option (List Char → List Char → Except (List Char) ℚ)) :
    ((compute_keyword_match r j emb).job_keyword_count.isSome = true ↔
      (compute_keyword_match r j emb).error = none) ∧
    ((compute_keyword_match r j emb).job_keyword_count = none →
      (compute_keyword_match r j emb).error.isSome = true ∧
      (compute_keyword_match r j emb).semantic_similarity = -1 ∧
      (compute_keyword_match r j emb).keyword_coverage_percent = 0) := by
  rcases emb with _ | enc
  · simp [compute_keyword_match]
  · cases hok : enc r j with
    | error e => simp [compute_keyword_match, hok]
    | ok s =>
      by_cases hpos : 0 < (job_keywords j).length
      · simp [compute_keyword_match, hok, hpos]
      · simp [compute_keyword_match, hok, hpos]

theorem gc_sentinel (avail : Bool)
    (service : List Char → Except (List Char) (List GrammarMatch))
    (text : List Char) :
    ((grammar_check avail service text).errors_count = -1 ↔
      (grammar_check avail service text).error.isSome = true) ∧
    ((grammar_check avail service text).errors_count = -1 →
      (grammar_check avail service text).sample_errors = []) := by
  cases avail with
  | false => simp [grammar_check]
  | true =>
    cases hok : service text with
    | error e => simp [grammar_check, hok]
    | ok ms =>
      constructor
      · simp only [grammar_check, Bool.not_true, Bool.false_eq_true, if_false, hok]
        simp
      · intro h
        simp only [grammar_check, Bool.not_true, Bool.false_eq_true, if_false, hok] at h
        omega

/-- Claim C2 (corrected): the analysis record always carries its five
top-level keys; the grammar sub-record always has `errors_count` and
`sample_errors` (empty on failure, with an error message); the keyword
sub-record always has `semantic_similarity` and `keyword_coverage_percent`
— but `job_keyword_count` is present exactly when the keyword computation
succeeds: when the embedding model is unavailable or raises, that key is
absent and an error message takes its place (see the counterexample). -/
theorem analysis_record_population (env : Env) (r j : List Char) :
    ((build_analysis env r j).keyword_match.job_keyword_count.isSome = true ↔
      (build_analysis env r j).keyword_match.error = none) ∧
    ((build_analysis env r j).keyword_match.job_keyword_count = none →
      (build_analysis env r j).keyword_match.error.isSome = true ∧
      (build_analysis env r j).keyword_match.semantic_similarity = -1 ∧
      (build_analysis env r j).keyword_match.keyword_coverage_percent = 0) ∧
    ((build_analysis env r j).grammar.errors_count = -1 ↔
      (build_analysis env r j).grammar.error.isSome = true) ∧
    ((build_analysis env r j).grammar.errors_count = -1 →
      (build_analysis env r j).grammar.sample_errors = []) :=
  ⟨(ckm_count_error r j env.embed_model).1,
   (ckm_count_error r j env.embed_model).2,
   (gc_sentinel env.lang_tool_available env.grammar_service r).1,
   (gc_sentinel env.lang_tool_available env.grammar_service r).2⟩

/-- Witness for C2: the sentinel-population clauses at a concrete
environment with both optional services down. -/
theorem analysis_record_population_witness :
    (build_analysis { envW with embed_model := none, lang_tool_available := false }
      "r".data "j".data).keyword_match.error.isSome = true ∧
    (build_analysis { envW with embed_model := none, lang_tool_available := false }
      "r".data "j".data).grammar.sample_errors = [] :=
  ⟨((analysis_record_population
      { envW with embed_model := none, lang_tool_available := false }
      "r".data "j".data).2.1 rfl).1,
   (analysis_record_population
      { envW with embed_model := none, lang_tool_available := false }
      "r".data "j".data).2.2.2 rfl⟩

/-- Counterexample for C2 as stated: with the embedding model unavailable
(a failing extractor), the `keyword_match` sub-record of the assembled
analysis record has NO `job_keyword_count` key. -/
theorem analysis_record_missing_key_cex :
    (build_analysis { envW with embed_model := none } "resume text".data
      "job".data).keyword_match.job_keyword_count = none := rfl

theorem sectionsMsg_take8 (m : List (List Char)) :
    (sectionsMsg m).take 8 = "Add or c".data := by
  unfold sectionsMsg
  rw [List.take_append_eq_append_take, List.take_append_eq_append_take]
  have h1 : 8 - "Add or clearly label these sections: ".data.length = 0 := by decide
  have h2 : 8 - ("Add or clearly label these sections: ".data ++
      joinSep ", ".data m).length = 0 := by
    rw [List.length_append]
    have h3 : 37 ≤ "Add or clearly label these sections: ".data.length := by decide
    omega
  rw [h1, h2, List.take_zero, List.take_zero, List.append_nil, List.append_nil]
  decide

theorem grammarMsg_take8 (n : Int) : (grammarMsg n).take 8 = "Fix gram".data := by
  unfold grammarMsg
  rw [List.take_append_eq_append_take, List.take_append_eq_append_take]
  have h1 : 8 - "Fix grammar & typos (".data.length = 0 := by decide
  have h2 : 8 - ("Fix grammar & typos (".data ++ (toString n).data).length = 0 := by
    rw [List.length_append]
    have h3 : 21 ≤ "Fix grammar & typos (".data.length := by decide
    omega
  rw [h1, h2, List.take_zero, List.take_zero, List.append_nil, List.append_nil]
  decide

theorem quantMsg_ne_sectionsMsg (m : List (List Char)) : quantMsg ≠ sectionsMsg m := by
  intro h
  have h8 := congrArg (List.take 8) h
  rw [sectionsMsg_take8] at h8
  exact absurd h8 (by decide)

theorem quantMsg_ne_grammarMsg (n : Int) : quantMsg ≠ grammarMsg n := by
  intro h
  have h8 := congrArg (List.take 8) h
  rw [grammarMsg_take8] at h8
  exact absurd h8 (by decide)

theorem alignMsg_ne_sectionsMsg (m : List (List Char)) : alignMsg ≠ sectionsMsg m := by
  intro h
  have h8 := congrArg (List.take 8) h
  rw [sectionsMsg_take8] at h8
  exact absurd h8 (by decide)

theorem alignMsg_ne_grammarMsg (n : Int) : alignMsg ≠ grammarMsg n := by
  intro h
  have h8 := congrArg (List.take 8) h
  rw [grammarMsg_take8] at h8
  exact absurd h8 (by decide)

theorem numberFrom_length (l : List (List Char)) :
    ∀ k, (numberFrom k l).length = l.length := by
  induction l with
  | nil => intro k; rfl
  | cons s rest ih =>
    intro k
    simp only [numberFrom, List.length_cons, ih (k + 1)]

theorem numberFrom_get (l : List (List Char)) :
    ∀ k i (h : i < (numberFrom k l).length) (h2 : i < l.length),
      (numberFrom k l).get ⟨i, h⟩ =
        (toString (k + i)).data ++ ". ".data ++ l.get ⟨i, h2⟩ := by
  induction l with
  | nil => intro k i h h2; cases h2
  | cons s rest ih =>
    intro k i h h2
    cases i with
    | zero => simp [numberFrom]
    | succ i2 =>
      have h3 : i2 < (numberFrom (k + 1) rest).length := by
        simp only [numberFrom, List.length_cons] at h
        omega
      have h4 : i2 < rest.length := by
        simp only [List.length_cons] at h2
        omega
      show (numberFrom (k + 1) rest).get ⟨i2, h3⟩ = _
      rw [ih (k + 1) i2 h3 h4]
      have : k + 1 + i2 = k + (i2 + 1) := by omega
      rw [this]
      rfl

theorem take3_of_item (z : List Char) : ("1. ".data ++ z).take 3 = "1. ".data := by
  rw [List.take_append_eq_append_take]
  have h0 : 3 - "1. ".data.length = 0 := by decide
  rw [h0, List.take_zero, List.append_nil]
  decide

theorem fallbackSuggestions_some (r : List Char) (a : AnalysisRecord)
    (jt : List Char) :
    fallbackSuggestions r a (some jt) =
      (if a.action_verbs < 5 || a.word_count < 250 then [quantMsg] else []) ++
      (if a.missing_sections.isEmpty then []
       else [sectionsMsg a.missing_sections]) ++
      (if 0 < a.grammar.errors_count then [grammarMsg a.grammar.errors_count]
       else []) ++
      (if jt.isEmpty then []
       else if a.keyword_match.keyword_coverage_percent < 50 then [alignMsg]
       else [praiseMsg]) ++
      (if count_bullets r < 5 then [bulletMsg] else []) ++ [summaryMsg] := rfl

theorem fallbackSuggestions_none (r : List Char) (a : AnalysisRecord) :
    fallbackSuggestions r a none =
      (if a.action_verbs < 5 || a.word_count < 250 then [quantMsg] else []) ++
      (if a.missing_sections.isEmpty then []
       else [sectionsMsg a.missing_sections]) ++
      (if 0 < a.grammar.errors_count then [grammarMsg a.grammar.errors_count]
       else []) ++
      ([] : List (List Char)) ++
      (if count_bullets r < 5 then [bulletMsg] else []) ++ [summaryMsg] := rfl

theorem quant_not_mem (r : List Char) (a : AnalysisRecord) (j : Option (List Char))
    (h5 : ¬ a.action_verbs < 5) (h250 : ¬ a.word_count < 250) :
    quantMsg ∉ fallbackSuggestions r a j := by
  intro hmem
  have hb : (decide (a.action_verbs < 5) || decide (a.word_count < 250)) = false := by
    rw [decide_eq_false h5, decide_eq_false h250]
    rfl
  unfold fallbackSuggestions at hmem
  rw [hb] at hmem
  simp only [Bool.false_eq_true, if_false, List.nil_append, List.mem_append,
    List.mem_singleton] at hmem
  rcases hmem with (((h | h) | h) | h) | h
  · revert h
    split <;> intro h
    · exact absurd h (List.not_mem_nil _)
    · exact quantMsg_ne_sectionsMsg _ (List.mem_singleton.mp h)
  · revert h
    split <;> intro h
    · exact quantMsg_ne_grammarMsg _ (List.mem_singleton.mp h)
    · exact absurd h (List.not_mem_nil _)
  · rcases j with _ | jt
    · exact absurd h (List.not_mem_nil _)
    · revert h
      show quantMsg ∈ (if jt.isEmpty then ([] : List (List Char))
        else if a.keyword_match.keyword_coverage_percent < 50 then [alignMsg]
        else [praiseMsg]) → False
      split <;> intro h
      · exact absurd h (List.not_mem_nil _)
      · revert h
        split <;> intro h
        · exact absurd (List.mem_singleton.mp h) (by decide)
        · exact absurd (List.mem_singleton.mp h) (by decide)
  · revert h
    split <;> intro h
    · exact absurd (List.mem_singleton.mp h) (by decide)
    · exact absurd h (List.not_mem_nil _)
  · exact absurd h (by decide)

theorem quant_mem (r : List Char) (a : AnalysisRecord) (j : Option (List Char))
    (hcond : a.action_verbs < 5 ∨ a.word_count < 250) :
    quantMsg ∈ fallbackSuggestions r a j := by
  have hb : (decide (a.action_verbs < 5) || decide (a.word_count < 250)) = true := by
    rcases hcond with h | h
    · simp [h]
    · simp [h]
  unfold fallbackSuggestions
  rw [hb]
  simp

theorem praise_of_covered (r : List Char) (a : AnalysisRecord) (jt : List Char)
    (hne : jt ≠ []) (hcov : 50 ≤ a.keyword_match.keyword_coverage_percent) :
    praiseMsg ∈ fallbackSuggestions r a (some jt) ∧
    alignMsg ∉ fallbackSuggestions r a (some jt) := by
  have hjt : ¬(jt.isEmpty = true) := by
    cases jt
    · exact absurd rfl hne
    · intro h; cases h
  have hs4 : (if jt.isEmpty then ([] : List (List Char))
      else if a.keyword_match.keyword_coverage_percent < 50 then [alignMsg]
      else [praiseMsg]) = [praiseMsg] := by
    rw [if_neg hjt, if_neg (not_lt.mpr hcov)]
  constructor
  · rw [fallbackSuggestions_some, hs4]
    simp
  · intro hmem
    rw [fallbackSuggestions_some, hs4] at hmem
    simp only [List.mem_append, List.mem_singleton] at hmem
    rcases hmem with ((((h | h) | h) | h) | h) | h
    · revert h
      split <;> intro h
      · exact absurd (List.mem_singleton.mp h) (by decide)
      · exact absurd h (List.not_mem_nil _)
    · revert h
      split <;> intro h
      · exact absurd h (List.not_mem_nil _)
      · exact alignMsg_ne_sectionsMsg _ (List.mem_singleton.mp h)
    · revert h
      split <;> intro h
      · exact alignMsg_ne_grammarMsg _ (List.mem_singleton.mp h)
      · exact absurd h (List.not_mem_nil _)
    · exact absurd h (by decide)
    · revert h
      split <;> intro h
      · exact absurd (List.mem_singleton.mp h) (by decide)
      · exact absurd h (List.not_mem_nil _)
    · exact absurd h (by decide)

theorem take3_of_item2 (z1 z2 : List Char) :
    (("1. ".data ++ z1) ++ z2).take 3 = "1. ".data := by
  rw [List.append_assoc]
  exact take3_of_item _

theorem take3_of_item3 (z1 z2 z3 : List Char) :
    ((("1. ".data ++ z1) ++ z2) ++ z3).take 3 = "1. ".data := by
  rw [List.append_assoc]
  exact take3_of_item2 _ _

/-- Claim C6: the deterministic feedback is the blank-line join of the
program-order suggestions numbered from 1 (the numbering witnessed by the
final conjunct); the quantifiable-achievements suggestion appears exactly
when the action-verb count is below 5 or the word count is below 250; with a
job description supplied and coverage at least 50 the praise suggestion
appears and the alignment suggestion does not; the last suggestion is always
the professional-summary one, so the result is non-empty and starts with
"1. ". -/
theorem generate_feedback_fallback_shape (r : List Char) (a : AnalysisRecord)
    (j : Option (List Char)) :
    (quantMsg ∈ fallbackSuggestions r a j ↔
      a.action_verbs < 5 ∨ a.word_count < 250) ∧
    (∀ jt, j = some jt → jt ≠ [] →
      50 ≤ a.keyword_match.keyword_coverage_percent →
      praiseMsg ∈ fallbackSuggestions r a j ∧
      alignMsg ∉ fallbackSuggestions r a j) ∧
    (fallbackSuggestions r a j).getLast? = some summaryMsg ∧
    (generate_feedback_fallback r a j).take 3 = "1. ".data ∧
    generate_feedback_fallback r a j ≠ [] ∧
    (∃ items, generate_feedback_fallback r a j = joinSep "\n\n".data items ∧
      items.length = (fallbackSuggestions r a j).length ∧
      ∀ i (h : i < items.length) (h2 : i < (fallbackSuggestions r a j).length),
        items.get ⟨i, h⟩ =
          (toString (i + 1)).data ++ ". ".data ++
            (fallbackSuggestions r a j).get ⟨i, h2⟩) := by
  have hlast : (fallbackSuggestions r a j).getLast? = some summaryMsg := by
    cases j with
    | none => rw [fallbackSuggestions_none]; exact List.getLast?_concat _
    | some jt => rw [fallbackSuggestions_some]; exact List.getLast?_concat _
  have hne2 : fallbackSuggestions r a j ≠ [] := by
    intro h
    rw [h] at hlast
    simp at hlast
  obtain ⟨s0, rest, hS⟩ := List.exists_cons_of_ne_nil hne2
  have hitem : (toString 1).data ++ ". ".data = "1. ".data := by decide
  have htake : (generate_feedback_fallback r a j).take 3 = "1. ".data := by
    show (joinSep "\n\n".data (numberFrom 1 (fallbackSuggestions r a j))).take 3 = _
    rw [hS]
    cases rest with
    | nil =>
      show ((toString 1).data ++ ". ".data ++ s0).take 3 = _
      rw [hitem]
      exact take3_of_item s0
    | cons y r2 =>
      show (((toString 1).data ++ ". ".data ++ s0 ++ "\n\n".data) ++
        joinSep "\n\n".data (numberFrom 2 (y :: r2))).take 3 = _
      rw [hitem]
      exact take3_of_item3 s0 "\n\n".data _
  have hnempty : generate_feedback_fallback r a j ≠ [] := by
    intro h
    rw [h] at htake
    exact absurd htake (by decide)
  refine ⟨⟨fun hmem => ?_, fun hcond => quant_mem r a j hcond⟩,
    fun jt hj hne hcov => by subst hj; exact praise_of_covered r a jt hne hcov,
    hlast, htake, hnempty, ?_⟩
  · by_contra hc
    push_neg at hc
    exact quant_not_mem r a j (not_lt.mpr hc.1) (not_lt.mpr hc.2) hmem
  · exact ⟨numberFrom 1 _, rfl, numberFrom_length _ 1, fun i h h2 => by
      rw [numberFrom_get _ 1 i h h2, Nat.add_comm 1 i]⟩

/-- Witness for C6: the quantifiable-achievements suggestion under a low
action-verb count, and the praise suggestion (with no alignment suggestion)
under 80% coverage. -/
theorem generate_feedback_fallback_shape_witness :
    quantMsg ∈ fallbackSuggestions "r".data aW2 (some "python".data) ∧
    praiseMsg ∈ fallbackSuggestions "r".data aW (some "python".data) ∧
    alignMsg ∉ fallbackSuggestions "r".data aW (some "python".data) :=
  ⟨(generate_feedback_fallback_shape "r".data aW2 (some "python".data)).1.mpr
      (Or.inl (by decide)),
   ((generate_feedback_fallback_shape "r".data aW (some "python".data)).2.1
      "python".data rfl (by decide) (by decide)).1,
   ((generate_feedback_fallback_shape "r".data aW (some "python".data)).2.1
      "python".data rfl (by decide) (by decide)).2⟩

end ResumeAnalyzer
